import Mathlib

/-!
# Verification of the tri-stage learning-rate scheduler (`scheduler.py`)

Shallow embedding of `TriStageLRScheduler` (and the small pieces of its base
class `LearningRateScheduler` that it uses).

Modelling conventions:
* Python floats are modelled as exact numbers: configuration values and all
  rates that stay rational are `ℚ`; the rates produced at run time (which
  involve `math.exp`) live in `ℝ`.
* Python ints are `ℤ` (the internal call counter `update_steps`, which starts
  at 0 and is only ever incremented, is `ℕ`).
* A parameter group of the optimizer is represented by the one piece of it the
  scheduler touches: its `lr` field, a real number.  The optimizer is the list
  of its parameter groups.
* Exceptions (`assert` failures, `ValueError` from `math.log` on a
  non-positive argument, `ZeroDivisionError`, the `AttributeError` from
  reading `_last_lr` before it is assigned) are modelled with
  `Except String`.
* The Python object stores the float `decay_factor = -log(final_lr_scale) /
  decay_steps` at construction time.  Here the (rational) `final_lr_scale` is
  stored instead and `decay_factor` is derived from it by the function
  `decay_factor`; since both fields are immutable after construction the two
  presentations agree, and the domain errors `math.log`/`/` can raise are
  checked at construction, exactly where Python raises them.
-/

namespace TriStage

/-- Python's `int(x)` applied to an exact rational: truncation toward zero. -/
def intTrunc (q : ℚ) : ℤ := q.num.tdiv (q.den : ℤ)

/-- The arguments of `TriStageLRScheduler.__init__` (minus the optimizer,
which is passed separately to `mkState`), with the Python default values. -/
structure Config where
  peak_lr : ℚ
  init_lr_scale : Option ℚ := none
  init_lr : ℚ := 0
  final_lr_scale : Option ℚ := none
  final_lr : ℚ := 0
  phase_ratio : Option (ℚ × ℚ × ℚ) := none
  warmup_steps : ℤ := 0
  hold_steps : ℤ := 0
  decay_steps : ℤ := 0
  total_steps : ℤ := 0
deriving DecidableEq

/-- The immutable attributes a successfully constructed `TriStageLRScheduler`
carries (`self.peak_lr`, `self.init_lr`, `self.final_lr`, `self.warmup_steps`,
`self.hold_steps`, `self.decay_steps`, `self.warmup_rate`; `final_lr_scale`
stands in for the stored `self.decay_factor`, see the module docstring). -/
structure Sched where
  peak_lr : ℚ
  init_lr : ℚ
  final_lr : ℚ
  final_lr_scale : ℚ
  warmup_steps : ℤ
  hold_steps : ℤ
  decay_steps : ℤ
  warmup_rate : ℚ
deriving DecidableEq

/-- `self.decay_factor = -math.log(final_lr_scale) / self.decay_steps`. -/
noncomputable def decay_factor (p : Sched) : ℝ :=
  -Real.log (p.final_lr_scale : ℝ) / (p.decay_steps : ℝ)

/-- Resolution of `self.init_lr`:
`if init_lr_scale is not None: assert init_lr_scale > 0; init_lr_scale * peak_lr
 else: init_lr`. -/
def resolveInitLr (cfg : Config) : Except String ℚ :=
  match cfg.init_lr_scale with
  | some s => if 0 < s then .ok (s * cfg.peak_lr) else .error "assert init_lr_scale > 0"
  | none => .ok cfg.init_lr

/-- Resolution of `self.final_lr` and of the local `final_lr_scale`:
`if final_lr_scale is not None: assert final_lr_scale > 0; (final_lr_scale * peak_lr, final_lr_scale)
 else: (final_lr, final_lr / peak_lr)` — the division raises
`ZeroDivisionError` when `peak_lr == 0`. -/
def resolveFinalLr (cfg : Config) : Except String (ℚ × ℚ) :=
  match cfg.final_lr_scale with
  | some s => if 0 < s then .ok (s * cfg.peak_lr, s) else .error "assert final_lr_scale > 0"
  | none =>
      if cfg.peak_lr = 0 then .error "ZeroDivisionError: final_lr / peak_lr"
      else .ok (cfg.final_lr, cfg.final_lr / cfg.peak_lr)

/-- Resolution of the phase lengths:
`if phase_ratio is not None: assert total_steps > 0; assert sum(phase_ratio) == 1;
 (int(total_steps * r) for r in phase_ratio) else: (warmup_steps, hold_steps, decay_steps)`. -/
def resolvePhases (cfg : Config) : Except String (ℤ × ℤ × ℤ) :=
  match cfg.phase_ratio with
  | some (r1, r2, r3) =>
      if 0 < cfg.total_steps then
        if r1 + r2 + r3 = 1 then
          .ok (intTrunc ((cfg.total_steps : ℚ) * r1),
               intTrunc ((cfg.total_steps : ℚ) * r2),
               intTrunc ((cfg.total_steps : ℚ) * r3))
        else .error "phase ratios must add up to 1"
      else .error "assert total_steps > 0"
  | none => .ok (cfg.warmup_steps, cfg.hold_steps, cfg.decay_steps)

/-- `TriStageLRScheduler.__init__` up to the computation of the immutable
attributes.  After resolving the rates and phase lengths it checks
`warmup_steps + hold_steps + decay_steps > 0`, computes `warmup_rate`
(guarding the division by `warmup_steps != 0`), and computes
`decay_factor = -math.log(final_lr_scale) / decay_steps`, which raises
`ValueError` when `final_lr_scale <= 0` and `ZeroDivisionError` when
`decay_steps == 0`. -/
def init (cfg : Config) : Except String Sched :=
  (resolveInitLr cfg).bind fun init_lr =>
  (resolveFinalLr cfg).bind fun fl =>
  (resolvePhases cfg).bind fun phases =>
  match fl, phases with
  | (final_lr, final_lr_scale), (w, h, d) =>
    if 0 < w + h + d then
      let warmup_rate : ℚ := if w ≠ 0 then (cfg.peak_lr - init_lr) / (w : ℚ) else 0
      if final_lr_scale ≤ 0 then
        .error "ValueError: math.log of non-positive final_lr_scale"
      else if d = 0 then
        .error "ZeroDivisionError: decay_steps"
      else
        .ok ⟨cfg.peak_lr, init_lr, final_lr, final_lr_scale, w, h, d, warmup_rate⟩
    else .error "please specify steps or phase_ratio"

/-- The full runtime object: the immutable attributes, the two mutable fields
`self.lr` and `self.update_steps`, the bound optimizer (its parameter groups'
`lr` fields), and `self._last_lr`, which is `none` until `step` first assigns
it. -/
structure State where
  params : Sched
  lr : ℝ
  update_steps : ℕ
  param_groups : List ℝ
  last_lr : Option (List ℝ)

/-- End of `__init__`: `self.lr = self.init_lr`, `self.update_steps = 0`; the
optimizer's parameter groups are untouched and `self._last_lr` is unset. -/
def mkState (p : Sched) (param_groups : List ℝ) : State :=
  ⟨p, (p.init_lr : ℝ), 0, param_groups, none⟩

/-- `LearningRateScheduler.set_lr`: write `lr` into every parameter group. -/
def set_lr (param_groups : List ℝ) (lr : ℝ) : List ℝ :=
  param_groups.map fun _ => lr

/-- `LearningRateScheduler.get_lr`: the first parameter group's `lr`
(`None` when there is no group, the `for`-loop body never running). -/
def get_lr (s : State) : Option ℝ :=
  s.param_groups.head?

/-- `LearningRateScheduler.get_last_lr`: `self._last_lr`, which raises
`AttributeError` when it has never been assigned. -/
def get_last_lr (s : State) : Except String (List ℝ) :=
  match s.last_lr with
  | some l => .ok l
  | none => .error "AttributeError: _last_lr"

/-- `TriStageLRScheduler._decide_stage`, a pure function of
`self.update_steps` and the three phase lengths.  The first component is the
stage tag (`0` = WARMUP, `1` = HOLD, `2` = DECAY, `3` = FINAL), the second the
offset within the stage. -/
def decideStage (p : Sched) (update_steps : ℕ) : ℕ × ℤ :=
  if (update_steps : ℤ) < p.warmup_steps then (0, (update_steps : ℤ))
  else
    let offset := p.warmup_steps
    if (update_steps : ℤ) < offset + p.hold_steps then (1, (update_steps : ℤ) - offset)
    else
      let offset := offset + p.hold_steps
      if (update_steps : ℤ) ≤ offset + p.decay_steps then (2, (update_steps : ℤ) - offset)
      else
        let offset := offset + p.decay_steps
        (3, (update_steps : ℤ) - offset)

/-- `TriStageLRScheduler.step(val_loss=None)`: decide the stage, compute the
new `self.lr` (raising `ValueError("Undefined stage")` on an unrecognized
tag), push it into every parameter group, increment `self.update_steps`,
snapshot `self._last_lr` from the parameter groups, and return the rate. -/
noncomputable def step (s : State) (val_loss : Option ℝ := none) :
    Except String (State × ℝ) :=
  match decideStage s.params s.update_steps with
  | (stage, steps_in_stage) =>
    (if stage = 0 then
        .ok ((s.params.init_lr : ℝ) + (s.params.warmup_rate : ℝ) * (steps_in_stage : ℝ))
      else if stage = 1 then
        .ok (s.params.peak_lr : ℝ)
      else if stage = 2 then
        .ok ((s.params.peak_lr : ℝ) * Real.exp (-(decay_factor s.params) * (steps_in_stage : ℝ)))
      else if stage = 3 then
        .ok (s.params.final_lr : ℝ)
      else
        (.error "ValueError: Undefined stage" : Except String ℝ)).bind fun lr =>
    let param_groups' := set_lr s.param_groups lr
    .ok ({ s with lr := lr,
                  param_groups := param_groups',
                  update_steps := s.update_steps + 1,
                  last_lr := some (param_groups'.map fun g => g) }, lr)

/-- `n` successive `step()` calls (with the default `val_loss=None`),
collecting the returned rates in order. -/
noncomputable def runSteps : ℕ → State → Except String (State × List ℝ)
  | 0, s => .ok (s, [])
  | n + 1, s =>
      (step s none).bind fun sr =>
      (runSteps n sr.1).bind fun srs =>
      .ok (srs.1, sr.2 :: srs.2)

/-! ## Internal helper definitions and lemmas -/

/-- The rate `step` computes when `self.update_steps = u` (before the
increment), as a pure function of the immutable attributes. -/
noncomputable def rateAt (p : Sched) (u : ℕ) : ℝ :=
  match decideStage p u with
  | (stage, off) =>
    if stage = 0 then (p.init_lr : ℝ) + (p.warmup_rate : ℝ) * (off : ℝ)
    else if stage = 1 then (p.peak_lr : ℝ)
    else if stage = 2 then (p.peak_lr : ℝ) * Real.exp (-(decay_factor p) * (off : ℝ))
    else (p.final_lr : ℝ)

/-- The state `step` leaves behind. -/
noncomputable def nextState (s : State) : State :=
  { s with lr := rateAt s.params s.update_steps,
           param_groups := set_lr s.param_groups (rateAt s.params s.update_steps),
           update_steps := s.update_steps + 1,
           last_lr := some (set_lr s.param_groups (rateAt s.params s.update_steps)) }

/-- The state after `n` successful `step()` calls. -/
noncomputable def iterState : ℕ → State → State
  | 0, s => s
  | n + 1, s => iterState n (nextState s)

/-- The phase lengths a configuration resolves to (the values
`resolvePhases` returns when its own checks pass). -/
def resolvedSteps (cfg : Config) : ℤ × ℤ × ℤ :=
  match cfg.phase_ratio with
  | some (r1, r2, r3) =>
      (intTrunc ((cfg.total_steps : ℚ) * r1),
       intTrunc ((cfg.total_steps : ℚ) * r2),
       intTrunc ((cfg.total_steps : ℚ) * r3))
  | none => (cfg.warmup_steps, cfg.hold_steps, cfg.decay_steps)

/-- The configuration of the spec's concrete scenario:
`peak_lr=1e-3, init_lr=0, final_lr=1e-5, warmup_steps=2, hold_steps=1,
decay_steps=2`. -/
def cfg4 : Config :=
  { peak_lr := 1/1000, init_lr := 0, final_lr := 1/100000,
    warmup_steps := 2, hold_steps := 1, decay_steps := 2 }

/-- The attributes `cfg4` resolves to: `final_lr_scale = 1e-5/1e-3 = 1/100`,
`warmup_rate = (1e-3 - 0)/2 = 1/2000`. -/
def sched4 : Sched :=
  ⟨1/1000, 0, 1/100000, 1/100, 2, 1, 2, 1/2000⟩

/-- A configuration whose `phase_ratio` sums to 1 yet makes two of the three
phase lengths negative: `int(1*10)=10`, `int(1*-6)=-6`, `int(1*-3)=-3`. -/
def cfg5 : Config :=
  { peak_lr := 1, final_lr_scale := some 1,
    phase_ratio := some (10, -6, -3), total_steps := 1 }

/-- The attributes `cfg5` resolves to. -/
def sched5 : Sched :=
  ⟨1, 0, 1, 1, 10, -6, -3, 1/10⟩

/-! ## Helper lemmas -/

theorem decideStage_eq (p : Sched) (u : ℕ) :
    decideStage p u =
      if (u : ℤ) < p.warmup_steps then (0, (u : ℤ))
      else if (u : ℤ) < p.warmup_steps + p.hold_steps then
        (1, (u : ℤ) - p.warmup_steps)
      else if (u : ℤ) ≤ p.warmup_steps + p.hold_steps + p.decay_steps then
        (2, (u : ℤ) - p.warmup_steps - p.hold_steps)
      else (3, (u : ℤ) - p.warmup_steps - p.hold_steps - p.decay_steps) := by
  simp only [decideStage]
  split_ifs <;> simp <;> ring

theorem decideStage_fst_le_three (p : Sched) (u : ℕ) : (decideStage p u).1 ≤ 3 := by
  rw [decideStage_eq]
  split_ifs <;> simp

theorem decideStage_snd_nonneg (p : Sched) (u : ℕ) : 0 ≤ (decideStage p u).2 := by
  rw [decideStage_eq]
  split_ifs <;> simp <;> omega

theorem step_eq (s : State) (val_loss : Option ℝ) :
    step s val_loss = .ok (nextState s, rateAt s.params s.update_steps) := by
  have h3 := decideStage_fst_le_three s.params s.update_steps
  simp only [step, rateAt, nextState, set_lr, List.map_map]
  rcases hd : decideStage s.params s.update_steps with ⟨stage, off⟩
  rw [hd] at h3
  interval_cases stage <;>
    simp [Except.bind, List.map_map, Function.comp_def, List.map_const']

theorem iterState_params (n : ℕ) (s : State) : (iterState n s).params = s.params := by
  induction n generalizing s with
  | zero => rfl
  | succ n ih => rw [iterState, ih]; rfl

theorem iterState_update_steps (n : ℕ) (s : State) :
    (iterState n s).update_steps = s.update_steps + n := by
  induction n generalizing s with
  | zero => rfl
  | succ n ih => rw [iterState, ih]; simp [nextState]; omega

theorem runSteps_eq (n : ℕ) (s : State) :
    runSteps n s =
      .ok (iterState n s,
           (List.range n).map fun i => rateAt s.params (s.update_steps + i)) := by
  induction n generalizing s with
  | zero => simp [runSteps, iterState]
  | succ n ih =>
      rw [runSteps, step_eq, Except.bind, ih]
      have hp : (nextState s).params = s.params := rfl
      have hu : (nextState s).update_steps = s.update_steps + 1 := rfl
      rw [hp, hu]
      simp only [Except.bind, iterState, List.range_succ_eq_map, List.map_cons,
        List.map_map, Except.ok.injEq, Prod.mk.injEq, List.cons.injEq, true_and]
      refine ⟨?_, ?_⟩
      · simp
      · apply List.map_congr_left
        intro i _
        simp only [Function.comp_apply]
        congr 1
        omega

theorem resolveFinalLr_ok {cfg : Config} {fl fs : ℚ}
    (h : resolveFinalLr cfg = .ok (fl, fs)) : cfg.peak_lr * fs = fl := by
  unfold resolveFinalLr at h
  split at h
  · split_ifs at h
    simp only [Except.ok.injEq, Prod.mk.injEq] at h
    rw [← h.1, ← h.2]
    ring
  · split_ifs at h with hp
    simp only [Except.ok.injEq, Prod.mk.injEq] at h
    rw [← h.1, ← h.2]
    field_simp

theorem resolveInitLr_error_iff (cfg : Config) :
    (∃ e, resolveInitLr cfg = .error e) ↔
      ∃ s, cfg.init_lr_scale = some s ∧ s ≤ 0 := by
  unfold resolveInitLr
  cases h : cfg.init_lr_scale with
  | none => simp
  | some s =>
      dsimp only
      split_ifs with hs
      · simp [not_le.mpr hs]
      · simp [not_lt.mp hs]

theorem resolveFinalLr_error_iff (cfg : Config) :
    (∃ e, resolveFinalLr cfg = .error e) ↔
      ((∃ s, cfg.final_lr_scale = some s ∧ s ≤ 0) ∨
       (cfg.final_lr_scale = none ∧ cfg.peak_lr = 0)) := by
  unfold resolveFinalLr
  cases h : cfg.final_lr_scale with
  | none =>
      dsimp only
      split_ifs with hp <;> simp [hp]
  | some s =>
      dsimp only
      split_ifs with hs
      · simp [not_le.mpr hs]
      · simp [not_lt.mp hs]

theorem resolveFinalLr_scale {cfg : Config} {fl fs : ℚ}
    (h : resolveFinalLr cfg = .ok (fl, fs)) :
    cfg.final_lr_scale = some fs ∨
      (cfg.final_lr_scale = none ∧ fs = cfg.final_lr / cfg.peak_lr) := by
  unfold resolveFinalLr at h
  cases hc : cfg.final_lr_scale with
  | none =>
      rw [hc] at h
      dsimp only at h
      split_ifs at h with hp
      simp only [Except.ok.injEq, Prod.mk.injEq] at h
      exact Or.inr ⟨rfl, h.2.symm⟩
  | some s =>
      rw [hc] at h
      dsimp only at h
      split_ifs at h with hs
      simp only [Except.ok.injEq, Prod.mk.injEq] at h
      exact Or.inl (by rw [h.2])

theorem resolvePhases_error_iff (cfg : Config) :
    (∃ e, resolvePhases cfg = .error e) ↔
      ((cfg.phase_ratio.isSome ∧ cfg.total_steps ≤ 0) ∨
       (∃ r1 r2 r3, cfg.phase_ratio = some (r1, r2, r3) ∧ r1 + r2 + r3 ≠ 1)) := by
  unfold resolvePhases
  cases h : cfg.phase_ratio with
  | none => simp
  | some r =>
      obtain ⟨r1, r2, r3⟩ := r
      dsimp only
      split_ifs with ht hr
      · simp [not_le.mpr ht, hr]
      · exact iff_of_true ⟨_, rfl⟩ (Or.inr ⟨r1, r2, r3, rfl, hr⟩)
      · exact iff_of_true ⟨_, rfl⟩ (Or.inl ⟨rfl, not_lt.mp ht⟩)

theorem resolvePhases_ok_val {cfg : Config} {x : ℤ × ℤ × ℤ}
    (h : resolvePhases cfg = .ok x) : x = resolvedSteps cfg := by
  unfold resolvePhases at h
  unfold resolvedSteps
  cases hc : cfg.phase_ratio with
  | none =>
      rw [hc] at h
      dsimp only at h
      injection h with h'
      exact h'.symm
  | some r =>
      obtain ⟨r1, r2, r3⟩ := r
      rw [hc] at h
      dsimp only at h
      split_ifs at h
      injection h with h'
      exact h'.symm

/-- Invariants a successfully constructed scheduler satisfies. -/
theorem init_ok_inv {cfg : Config} {p : Sched} (h : init cfg = .ok p) :
    0 < p.final_lr_scale ∧ p.decay_steps ≠ 0 ∧
      0 < p.warmup_steps + p.hold_steps + p.decay_steps ∧
      p.peak_lr * p.final_lr_scale = p.final_lr := by
  unfold init at h
  cases hi : resolveInitLr cfg with
  | error e => rw [hi] at h; simp [Except.bind] at h
  | ok il =>
    rw [hi] at h
    cases hf : resolveFinalLr cfg with
    | error e => rw [hf] at h; simp [Except.bind] at h
    | ok fl =>
      rw [hf] at h
      cases hph : resolvePhases cfg with
      | error e => rw [hph] at h; simp [Except.bind] at h
      | ok phases =>
        rw [hph] at h
        rcases fl with ⟨fl, fs⟩
        rcases phases with ⟨w, hh, d⟩
        simp only [Except.bind] at h
        split_ifs at h <;>
          (injection h with h'
           subst h'
           refine ⟨?_, ?_, ?_, resolveFinalLr_ok hf⟩ <;> simp_all)

/-- At the DECAY/FINAL boundary the exponential lands exactly on
`final_lr` (in real arithmetic). -/
theorem decay_boundary_rate {p : Sched} (hfs : 0 < p.final_lr_scale)
    (hd : p.decay_steps ≠ 0) :
    (p.peak_lr : ℝ) * Real.exp (-(decay_factor p) * (p.decay_steps : ℝ)) =
      (p.peak_lr : ℝ) * (p.final_lr_scale : ℝ) := by
  have hdr : (p.decay_steps : ℝ) ≠ 0 := Int.cast_ne_zero.mpr hd
  have : -(decay_factor p) * (p.decay_steps : ℝ) = Real.log (p.final_lr_scale : ℝ) := by
    unfold decay_factor
    field_simp
  rw [this, Real.exp_log (by exact_mod_cast hfs)]

theorem rateAt_eq (p : Sched) (u : ℕ) :
    rateAt p u =
      if (u : ℤ) < p.warmup_steps then
        (p.init_lr : ℝ) + (p.warmup_rate : ℝ) * ((u : ℤ) : ℝ)
      else if (u : ℤ) < p.warmup_steps + p.hold_steps then (p.peak_lr : ℝ)
      else if (u : ℤ) ≤ p.warmup_steps + p.hold_steps + p.decay_steps then
        (p.peak_lr : ℝ) *
          Real.exp (-(decay_factor p) * (((u : ℤ) - p.warmup_steps - p.hold_steps : ℤ) : ℝ))
      else (p.final_lr : ℝ) := by
  unfold rateAt
  rw [decideStage_eq]
  split_ifs <;> simp

theorem rateAt_final {p : Sched} {u : ℕ}
    (hh : 0 ≤ p.hold_steps) (hd : 0 ≤ p.decay_steps)
    (h : p.warmup_steps + p.hold_steps + p.decay_steps < (u : ℤ)) :
    rateAt p u = (p.final_lr : ℝ) := by
  rw [rateAt_eq, if_neg (by omega), if_neg (by omega), if_neg (by omega)]

theorem rateAt_decay_boundary {p : Sched} {u : ℕ}
    (hfs : 0 < p.final_lr_scale) (hdz : p.decay_steps ≠ 0)
    (hpm : p.peak_lr * p.final_lr_scale = p.final_lr)
    (hh : 0 ≤ p.hold_steps) (hd : 0 ≤ p.decay_steps)
    (h : (u : ℤ) = p.warmup_steps + p.hold_steps + p.decay_steps) :
    rateAt p u = (p.final_lr : ℝ) := by
  rw [rateAt_eq, if_neg (by omega), if_neg (by omega), if_pos (by omega)]
  rw [show ((u : ℤ) - p.warmup_steps - p.hold_steps : ℤ) = p.decay_steps from by omega]
  rw [decay_boundary_rate hfs hdz]
  rw [show (p.peak_lr : ℝ) * (p.final_lr_scale : ℝ) = ((p.peak_lr * p.final_lr_scale : ℚ) : ℝ)
        from by push_cast; ring]
  rw [hpm]

theorem init_cfg4 : init cfg4 = .ok sched4 := by
  norm_num [init, cfg4, sched4, resolveInitLr, resolveFinalLr, resolvePhases,
    Except.bind, Sched.mk.injEq]

theorem init_cfg5 : init cfg5 = .ok sched5 := by
  norm_num [init, cfg5, sched5, resolveInitLr, resolveFinalLr, resolvePhases,
    intTrunc, Int.tdiv_one, Except.bind, Sched.mk.injEq]

theorem decay_factor_sched4 : decay_factor sched4 = Real.log 100 / 2 := by
  unfold decay_factor
  rw [show ((sched4.final_lr_scale : ℚ) : ℝ) = (100 : ℝ)⁻¹ from by norm_num [sched4]]
  rw [Real.log_inv]
  norm_num [sched4]

theorem decay_factor_sched4_pos : 0 < decay_factor sched4 := by
  rw [decay_factor_sched4]
  have : 0 < Real.log 100 := Real.log_pos (by norm_num)
  linarith

theorem rateAt_sched4_0 : rateAt sched4 0 = 0 := by
  rw [rateAt_eq]
  norm_num [sched4]

theorem rateAt_sched4_1 : rateAt sched4 1 = 1/2000 := by
  rw [rateAt_eq]
  norm_num [sched4]

theorem rateAt_sched4_2 : rateAt sched4 2 = 1/1000 := by
  rw [rateAt_eq]
  norm_num [sched4]

theorem rateAt_sched4_3 : rateAt sched4 3 = 1/1000 := by
  rw [rateAt_eq]
  norm_num [sched4, Real.exp_zero]

theorem rateAt_sched4_4 :
    rateAt sched4 4 = (1/1000 : ℝ) * Real.exp (-(decay_factor sched4) * 1) := by
  rw [rateAt_eq]
  norm_num [sched4]

theorem rateAt_sched4_5 : rateAt sched4 5 = 1/100000 := by
  rw [rateAt_decay_boundary (by norm_num [sched4]) (by norm_num [sched4])
    (by norm_num [sched4]) (by norm_num [sched4]) (by norm_num [sched4])
    (by norm_num [sched4])]
  norm_num [sched4]

/-- The six rates the spec's scenario actually produces. -/
theorem runSteps_sched4 :
    (runSteps 6 (mkState sched4 [0])).map Prod.snd =
      Except.ok [0, 1/2000, 1/1000, 1/1000,
        (1/1000 : ℝ) * Real.exp (-(decay_factor sched4) * 1), 1/100000] := by
  rw [runSteps_eq]
  simp only [Except.map, mkState]
  norm_num [List.range_succ, rateAt_sched4_0, rateAt_sched4_1, rateAt_sched4_2,
    rateAt_sched4_3, rateAt_sched4_4, rateAt_sched4_5]

theorem rateAt_sched5_warmup (i : ℕ) (h : i < 10) :
    rateAt sched5 i = (i : ℝ) / 10 := by
  rw [rateAt_eq, if_pos (by simp [sched5]; omega)]
  push_cast [sched5]
  ring

/-- The six rates a schedule built from `cfg5` produces: all six calls are
still in WARMUP although `warmup+hold+decay = 1`. -/
theorem runSteps_sched5 :
    (runSteps 6 (mkState sched5 [0])).map Prod.snd =
      Except.ok [0, 1/10, 1/5, 3/10, 2/5, 1/2] := by
  rw [runSteps_eq]
  simp only [Except.map, mkState]
  rw [show (6:ℕ) = 5+1 from rfl]
  norm_num [List.range_succ, rateAt_sched5_warmup]

/-! ## The claims -/

/-- C1: `_decide_stage` is a pure function of `step_count` and the three
phase lengths (tags: `0` = WARMUP, `1` = HOLD, `2` = DECAY, `3` = FINAL).
It returns WARMUP with offset `step_count` when `step_count < warmup_steps`;
HOLD with offset `step_count - warmup_steps` when `warmup_steps <= step_count
< warmup_steps + hold_steps`; DECAY with offset `step_count - warmup_steps -
hold_steps` when `warmup_steps + hold_steps <= step_count <= warmup_steps +
hold_steps + decay_steps` (inclusive upper bound, so the step at exactly
`warmup_steps + hold_steps + decay_steps` is DECAY with offset
`decay_steps`); and FINAL with offset `step_count - warmup_steps - hold_steps
- decay_steps` for every larger `step_count`. -/
theorem decide_stage_characterization (p : Sched) (step_count : ℕ) :
    decideStage p step_count =
      if (step_count : ℤ) < p.warmup_steps then (0, (step_count : ℤ))
      else if (step_count : ℤ) < p.warmup_steps + p.hold_steps then
        (1, (step_count : ℤ) - p.warmup_steps)
      else if (step_count : ℤ) ≤ p.warmup_steps + p.hold_steps + p.decay_steps then
        (2, (step_count : ℤ) - p.warmup_steps - p.hold_steps)
      else (3, (step_count : ℤ) - p.warmup_steps - p.hold_steps - p.decay_steps) :=
  decideStage_eq p step_count

/-- C2: every `step()` call returns (and records in `self.lr`) the rate given
by the stage decision evaluated at the pre-call `update_steps`:
`init_lr + warmup_rate * offset` in WARMUP, exactly `peak_lr` in HOLD,
`peak_lr * exp(-decay_factor * offset)` in DECAY and exactly `final_lr` in
FINAL. -/
theorem step_rate_formula (s : State) (val_loss : Option ℝ) :
    ∃ s' r, step s val_loss = .ok (s', r) ∧ s'.lr = r ∧
      r = (fun so : ℕ × ℤ =>
            if so.1 = 0 then
              (s.params.init_lr : ℝ) + (s.params.warmup_rate : ℝ) * (so.2 : ℝ)
            else if so.1 = 1 then (s.params.peak_lr : ℝ)
            else if so.1 = 2 then
              (s.params.peak_lr : ℝ) *
                Real.exp (-(decay_factor s.params) * (so.2 : ℝ))
            else (s.params.final_lr : ℝ))
          (decideStage s.params s.update_steps) := by
  refine ⟨nextState s, rateAt s.params s.update_steps, step_eq s val_loss, rfl, ?_⟩
  unfold rateAt
  cases hds : decideStage s.params s.update_steps with
  | mk stage off => rfl

/-- C6: after any `step()` call that returns rate `r`, every parameter group
of the bound optimizer carries `r` (one entry per group), `get_lr` reads `r`
back from the optimizer's first parameter group (whenever the optimizer has
one), and `get_last_lr` returns a sequence with one entry per parameter
group, each equal to `r`. -/
theorem step_updates_all_groups (s : State) (val_loss : Option ℝ) :
    ∃ s' r, step s val_loss = .ok (s', r) ∧
      s'.param_groups = List.replicate s.param_groups.length r ∧
      get_lr s' = (s.param_groups.head?.map fun _ => r) ∧
      get_last_lr s' = .ok (List.replicate s.param_groups.length r) := by
  refine ⟨nextState s, rateAt s.params s.update_steps, step_eq s val_loss, ?_, ?_, ?_⟩
  · simp [nextState, set_lr, List.map_const']
  · rcases hl : s.param_groups with _ | ⟨a, l⟩ <;>
      simp [nextState, get_lr, set_lr, hl]
  · simp [nextState, get_last_lr, set_lr, List.map_const']

/-- C7: the stage decision always yields a tag in `{0,1,2,3}` (= {WARMUP,
HOLD, DECAY, FINAL}) with a non-negative offset, so the `Undefined stage`
branch in `step()` is unreachable: `step()` never raises, and every call
fully updates the rate, the optimizer's parameter groups, the step counter
and the last-rates snapshot — no partial-failure mode. -/
theorem step_total_no_partial_failure (s : State) (val_loss : Option ℝ) :
    ((decideStage s.params s.update_steps).1 = 0 ∨
     (decideStage s.params s.update_steps).1 = 1 ∨
     (decideStage s.params s.update_steps).1 = 2 ∨
     (decideStage s.params s.update_steps).1 = 3) ∧
    0 ≤ (decideStage s.params s.update_steps).2 ∧
    ∃ s' r, step s val_loss = .ok (s', r) ∧
      s'.lr = r ∧ s'.param_groups = set_lr s.param_groups r ∧
      s'.update_steps = s.update_steps + 1 ∧
      s'.last_lr = some (set_lr s.param_groups r) ∧ s'.params = s.params := by
  refine ⟨?_, decideStage_snd_nonneg s.params s.update_steps,
    nextState s, rateAt s.params s.update_steps, step_eq s val_loss,
    rfl, rfl, rfl, rfl, rfl⟩
  have := decideStage_fst_le_three s.params s.update_steps
  omega

/-- C8: the `val_loss` argument of `step()` is ignored: from identical
states, any two losses produce identical outcomes — the same returned rate
and the same successor state, hence the same `update_steps`, `lr`,
`_last_lr` and parameter-group rates. -/
theorem step_ignores_loss (s : State) (loss1 loss2 : Option ℝ) :
    step s loss1 = step s loss2 := rfl

/-- C9: `update_steps` is initialized to 0 at construction; every `step()`
call increments it by exactly 1 and no operation decreases or resets it, so
after `n` calls on a fresh schedule it equals `n`. -/
theorem update_steps_counts_calls (p : Sched) (groups : List ℝ) :
    (mkState p groups).update_steps = 0 ∧
    (∀ (s : State) (val_loss : Option ℝ),
        ∃ s' r, step s val_loss = .ok (s', r) ∧
          s'.update_steps = s.update_steps + 1) ∧
    ∀ n : ℕ, ∃ (s' : State) (rs : List ℝ),
      runSteps n (mkState p groups) = .ok (s', rs) ∧ s'.update_steps = n := by
  refine ⟨rfl, fun s val_loss => ⟨nextState s, _, step_eq s val_loss, rfl⟩, fun n => ?_⟩
  refine ⟨_, _, runSteps_eq n (mkState p groups), ?_⟩
  rw [iterState_update_steps]
  simp [mkState]

/-- C10: on a freshly constructed schedule `get_last_lr` raises
`AttributeError` rather than returning a sequence (`_last_lr` is first
assigned only inside `step()`); after any `step()` call it returns the
snapshot taken by that call. -/
theorem get_last_lr_before_first_step (p : Sched) (groups : List ℝ) :
    get_last_lr (mkState p groups) = .error "AttributeError: _last_lr" ∧
    ∀ (s : State) (val_loss : Option ℝ),
      ∃ s' r, step s val_loss = .ok (s', r) ∧
        get_last_lr s' = .ok (set_lr s.param_groups r) :=
  ⟨rfl, fun s val_loss => ⟨nextState s, _, step_eq s val_loss, rfl⟩⟩

/-- C3 counterexample: two configurations that satisfy none of the claim's
four failure conditions — and that the claim explicitly asserts succeed —
still raise at construction.  With `final_lr` left at its default `0` and no
`final_lr_scale`, the derived scale is `0` and `math.log(0.0)` raises; with
`decay_steps = 0` and `warmup_steps + hold_steps > 0`, the division
`-log(final_lr_scale) / decay_steps` raises `ZeroDivisionError`. -/
theorem init_raises_beyond_claimed_conditions :
    init { peak_lr := 1/1000, warmup_steps := 1, hold_steps := 1, decay_steps := 1 } =
      .error "ValueError: math.log of non-positive final_lr_scale" ∧
    init { peak_lr := 1, final_lr_scale := some (1/2), warmup_steps := 2,
           hold_steps := 1, decay_steps := 0 } =
      .error "ZeroDivisionError: decay_steps" := by
  constructor <;>
    norm_num [init, resolveInitLr, resolveFinalLr, resolvePhases, Except.bind]

/-- C3 (amended): construction fails exactly when one of the following
holds — a given scale parameter (`init_lr_scale` or `final_lr_scale`) is
non-positive; `final_lr_scale` is not given while `peak_lr = 0` (the
derivation `final_lr / peak_lr` divides by zero); `phase_ratio` is given
while `total_steps <= 0`; the given phase ratios do not sum to 1; the three
resolved phase lengths sum to a non-positive value; the resolved
`final_lr_scale` is non-positive (`math.log` domain error at the
`decay_factor` computation); or the resolved `decay_steps` is 0 (division by
zero in the `decay_factor` computation).  Every other configuration
constructs successfully. -/
theorem init_error_characterization (cfg : Config) :
    (∃ e, init cfg = .error e) ↔
      ((∃ s, cfg.init_lr_scale = some s ∧ s ≤ 0) ∨
       (∃ s, cfg.final_lr_scale = some s ∧ s ≤ 0) ∨
       (cfg.final_lr_scale = none ∧ cfg.peak_lr = 0) ∨
       (cfg.phase_ratio.isSome ∧ cfg.total_steps ≤ 0) ∨
       (∃ r1 r2 r3, cfg.phase_ratio = some (r1, r2, r3) ∧ r1 + r2 + r3 ≠ 1) ∨
       (resolvedSteps cfg).1 + (resolvedSteps cfg).2.1 + (resolvedSteps cfg).2.2 ≤ 0 ∨
       (cfg.final_lr_scale = none ∧ cfg.final_lr / cfg.peak_lr ≤ 0) ∨
       (resolvedSteps cfg).2.2 = 0) := by
  constructor
  · rintro ⟨e, he⟩
    unfold init at he
    cases hi : resolveInitLr cfg with
    | error e1 => exact Or.inl ((resolveInitLr_error_iff cfg).mp ⟨e1, hi⟩)
    | ok il =>
      rw [hi] at he
      cases hf : resolveFinalLr cfg with
      | error e2 =>
          rcases (resolveFinalLr_error_iff cfg).mp ⟨e2, hf⟩ with h2 | h3
          · exact Or.inr (Or.inl h2)
          · exact Or.inr (Or.inr (Or.inl h3))
      | ok flp =>
        rw [hf] at he
        cases hph : resolvePhases cfg with
        | error e3 =>
            rcases (resolvePhases_error_iff cfg).mp ⟨e3, hph⟩ with h4 | h5
            · exact Or.inr (Or.inr (Or.inr (Or.inl h4)))
            · exact Or.inr (Or.inr (Or.inr (Or.inr (Or.inl h5))))
        | ok ph =>
          rw [hph] at he
          obtain ⟨fl', fs'⟩ := flp
          obtain ⟨w', h', d'⟩ := ph
          have hval : (w', h', d') = resolvedSteps cfg := resolvePhases_ok_val hph
          dsimp only [Except.bind] at he
          by_cases h1 : 0 < w' + h' + d'
          · rw [if_pos h1] at he
            by_cases h2 : fs' ≤ 0
            · rcases resolveFinalLr_scale hf with hsc | ⟨hn, hsc⟩
              · exact Or.inr (Or.inl ⟨fs', hsc, h2⟩)
              · exact Or.inr (Or.inr (Or.inr (Or.inr (Or.inr (Or.inr
                  (Or.inl ⟨hn, hsc ▸ h2⟩))))))
            · rw [if_neg h2] at he
              by_cases h3 : d' = 0
              · refine Or.inr (Or.inr (Or.inr (Or.inr (Or.inr (Or.inr (Or.inr ?_))))))
                rw [← hval]
                exact h3
              · rw [if_neg h3] at he
                exact absurd he (by simp)
          · refine Or.inr (Or.inr (Or.inr (Or.inr (Or.inr (Or.inl ?_)))))
            rw [← hval]
            dsimp only
            omega
  · intro hcond
    cases hi : resolveInitLr cfg with
    | error e1 => exact ⟨e1, by unfold init; rw [hi]; rfl⟩
    | ok il =>
      cases hf : resolveFinalLr cfg with
      | error e2 => exact ⟨e2, by unfold init; rw [hi, hf]; rfl⟩
      | ok flp =>
        cases hph : resolvePhases cfg with
        | error e3 => exact ⟨e3, by unfold init; rw [hi, hf, hph]; rfl⟩
        | ok ph =>
          obtain ⟨fl', fs'⟩ := flp
          obtain ⟨w', h', d'⟩ := ph
          have hval : (w', h', d') = resolvedSteps cfg := resolvePhases_ok_val hph
          have hbad : ¬ 0 < w' + h' + d' ∨ fs' ≤ 0 ∨ d' = 0 := by
            rcases hcond with c1 | c2 | c3 | c4 | c5 | c6 | c7 | c8
            · obtain ⟨e, hezz⟩ := (resolveInitLr_error_iff cfg).mpr c1
              rw [hi] at hezz
              exact absurd hezz (by simp)
            · obtain ⟨e, hezz⟩ := (resolveFinalLr_error_iff cfg).mpr (Or.inl c2)
              rw [hf] at hezz
              exact absurd hezz (by simp)
            · obtain ⟨e, hezz⟩ := (resolveFinalLr_error_iff cfg).mpr (Or.inr c3)
              rw [hf] at hezz
              exact absurd hezz (by simp)
            · obtain ⟨e, hezz⟩ := (resolvePhases_error_iff cfg).mpr (Or.inl c4)
              rw [hph] at hezz
              exact absurd hezz (by simp)
            · obtain ⟨e, hezz⟩ := (resolvePhases_error_iff cfg).mpr (Or.inr c5)
              rw [hph] at hezz
              exact absurd hezz (by simp)
            · left
              rw [← hval] at c6
              dsimp only at c6
              omega
            · right; left
              rcases resolveFinalLr_scale hf with hsc | ⟨hn, hsc⟩
              · rw [c7.1] at hsc
                exact absurd hsc (by simp)
              · rw [hsc]
                exact c7.2
            · right; right
              rw [← hval] at c8
              exact c8
          unfold init
          rw [hi, hf, hph]
          dsimp only [Except.bind]
          by_cases h1 : 0 < w' + h' + d'
          · rw [if_pos h1]
            by_cases h2 : fs' ≤ 0
            · exact ⟨_, by rw [if_pos h2]⟩
            · have h3 : d' = 0 := by tauto
              exact ⟨_, by rw [if_neg h2, if_pos h3]⟩
          · exact ⟨_, by rw [if_neg h1]⟩

/-- C4 counterexample: on the spec's concrete configuration the 4th call to
`step()` happens at pre-call `update_steps = 3`, which is the first DECAY
step with offset `0`, so it returns `1e-3 * exp(0) = 1e-3` — not the claimed
`1e-3 * exp(-decay_factor * 1)` (which is strictly smaller, since
`decay_factor > 0`). -/
theorem concrete_sequence_step4_cex :
    init cfg4 = Except.ok sched4 ∧
    (runSteps 6 (mkState sched4 [0])).map (fun p => p.2[3]?) =
      Except.ok (some (1/1000 : ℝ)) ∧
    (1/1000 : ℝ) ≠ (1/1000 : ℝ) * Real.exp (-(decay_factor sched4) * 1) := by
  refine ⟨init_cfg4, ?_, ?_⟩
  · rw [runSteps_eq]
    simp only [Except.map, mkState]
    norm_num [List.range_succ, rateAt_sched4_3]
  · have h1 : Real.exp (-(decay_factor sched4) * 1) < 1 := by
      rw [mul_one, Real.exp_lt_one_iff, neg_lt_zero]
      exact decay_factor_sched4_pos
    intro heq
    have h2 : (1/1000 : ℝ) * Real.exp (-(decay_factor sched4) * 1) < 1/1000 := by
      calc (1/1000 : ℝ) * Real.exp (-(decay_factor sched4) * 1)
          < (1/1000 : ℝ) * 1 := mul_lt_mul_of_pos_left h1 (by norm_num)
        _ = 1/1000 := mul_one _
    rw [← heq] at h2
    exact lt_irrefl _ h2

/-- C4 (amended): for `peak_rate=1e-3, init_rate=0, final_rate=1e-5,
warmup_steps=2, hold_steps=1, decay_steps=2` the six rates returned by 6
successive `step()` calls are: step1 = 0, step2 = 5e-4, step3 = 1e-3 (hold),
step4 = 1e-3 (DECAY entered with offset 0), step5 = 1e-3 *
exp(-decay_factor*1), step6 = 1e-5 (the exp-computed boundary, exact in real
arithmetic) — where `decay_factor = -ln(1e-5/1e-3)/2`. -/
theorem concrete_sequence_rates :
    init cfg4 = Except.ok sched4 ∧
    decay_factor sched4 = -Real.log ((1/100000 : ℝ) / (1/1000 : ℝ)) / 2 ∧
    (runSteps 6 (mkState sched4 [0])).map Prod.snd =
      Except.ok [0, 1/2000, 1/1000, 1/1000,
        (1/1000 : ℝ) * Real.exp (-(decay_factor sched4) * 1), 1/100000] := by
  refine ⟨init_cfg4, ?_, runSteps_sched4⟩
  rw [decay_factor_sched4,
    show (1/100000 : ℝ) / (1/1000 : ℝ) = (100 : ℝ)⁻¹ from by norm_num,
    Real.log_inv]
  ring

/-- C5 counterexample: a successfully constructed schedule (phase ratios
`(10, -6, -3)` over `total_steps = 1`, which Python accepts since they sum
to 1) resolves to phase lengths `10, -6, -3` with `warmup+hold+decay = 1`,
yet the last 5 of `1 + 5 = 6` rates are `[1/10, 1/5, 3/10, 2/5, 1/2]` —
still climbing the warmup ramp, neither identical nor equal to the final
rate `1`. -/
theorem final_absorbing_cex :
    init cfg5 = Except.ok sched5 ∧
    sched5.warmup_steps + sched5.hold_steps + sched5.decay_steps = 1 ∧
    (sched5.final_lr : ℝ) = 1 ∧
    (runSteps 6 (mkState sched5 [0])).map Prod.snd =
      Except.ok [0, 1/10, 1/5, 3/10, 2/5, 1/2] ∧
    ((1/2 : ℝ) ≠ 1) :=
  ⟨init_cfg5, by decide, by norm_num [sched5], runSteps_sched5, by norm_num⟩

/-- C5 (amended): for every successfully constructed schedule whose three
resolved phase lengths are non-negative, FINAL is absorbing: once
`update_steps` exceeds `warmup_steps + hold_steps + decay_steps`, every
`step()` call returns exactly `final_lr`; and `warmup+hold+decay+5` calls on
a fresh schedule produce a rate sequence whose last 5 entries all equal
`final_lr` (the 5th-from-last being the exp-computed DECAY boundary value,
which equals `final_lr` exactly in real arithmetic). -/
theorem final_stage_absorbing (cfg : Config) (p : Sched) (groups : List ℝ)
    (h : init cfg = .ok p) (hw : 0 ≤ p.warmup_steps) (hh : 0 ≤ p.hold_steps)
    (hd : 0 ≤ p.decay_steps) :
    (∀ (s : State) (val_loss : Option ℝ),
        s.params = p →
        p.warmup_steps + p.hold_steps + p.decay_steps < (s.update_steps : ℤ) →
        ∃ s', step s val_loss = .ok (s', (p.final_lr : ℝ))) ∧
    (∃ s rs,
      runSteps ((p.warmup_steps + p.hold_steps + p.decay_steps).toNat + 5)
          (mkState p groups) = .ok (s, rs) ∧
      rs.length = (p.warmup_steps + p.hold_steps + p.decay_steps).toNat + 5 ∧
      rs.drop ((p.warmup_steps + p.hold_steps + p.decay_steps).toNat) =
        List.replicate 5 (p.final_lr : ℝ)) := by
  obtain ⟨hfs, hdz, hsum, hpm⟩ := init_ok_inv h
  constructor
  · intro s val_loss hsp hgt
    refine ⟨nextState s, ?_⟩
    rw [step_eq s val_loss, hsp, rateAt_final hh hd hgt]
  · refine ⟨_, _, runSteps_eq _ _, by simp [mkState], ?_⟩
    have hT : (((p.warmup_steps + p.hold_steps + p.decay_steps).toNat : ℕ) : ℤ)
        = p.warmup_steps + p.hold_steps + p.decay_steps :=
      Int.toNat_of_nonneg (le_of_lt hsum)
    apply List.ext_getElem
    · simp [mkState]
    · intro i h1 h2
      rw [List.getElem_drop, List.getElem_map, List.getElem_range,
        List.getElem_replicate]
      simp only [mkState, Nat.zero_add]
      have hi5 : i < 5 := by
        simpa [mkState] using h2
      rcases Nat.eq_zero_or_pos i with hi | hi
      · subst hi
        exact rateAt_decay_boundary hfs hdz hpm hh hd (by omega)
      · exact rateAt_final hh hd (by omega)

/-- Witness for `final_stage_absorbing` at the spec's concrete
configuration `cfg4`. -/
theorem final_stage_absorbing_witness :
    (init cfg4 = Except.ok sched4 ∧ 0 ≤ sched4.warmup_steps ∧
      0 ≤ sched4.hold_steps ∧ 0 ≤ sched4.decay_steps) ∧
    ((∀ (s : State) (val_loss : Option ℝ),
        s.params = sched4 →
        sched4.warmup_steps + sched4.hold_steps + sched4.decay_steps <
          (s.update_steps : ℤ) →
        ∃ s', step s val_loss = .ok (s', (sched4.final_lr : ℝ))) ∧
     (∃ s rs,
        runSteps ((sched4.warmup_steps + sched4.hold_steps +
            sched4.decay_steps).toNat + 5) (mkState sched4 [0]) = .ok (s, rs) ∧
        rs.length = (sched4.warmup_steps + sched4.hold_steps +
          sched4.decay_steps).toNat + 5 ∧
        rs.drop ((sched4.warmup_steps + sched4.hold_steps +
            sched4.decay_steps).toNat) =
          List.replicate 5 (sched4.final_lr : ℝ))) :=
  ⟨⟨init_cfg4, by decide, by decide, by decide⟩,
   final_stage_absorbing cfg4 sched4 [0] init_cfg4 (by decide) (by decide) (by decide)⟩

end TriStage
